import Mathlib

/-!
Verification of the NutriTracker inference server (`server/host_model.py`).

The Python file is a thin FastAPI service: a `lifespan` handler loads a YOLO
segmentation model and a Depth-Anything depth estimator into the global dict
`app_models`; the single endpoint `predict` dispatches an upload to
`process_image` or `process_video`, which call the models, compute a
depth-weighted "volume score" per detected object (`calculate_volume`), and
return a JSON payload with base64-embedded media.

Shallow embedding conventions:
* Python floats are modelled as exact rationals `ℚ`; `round(x, 2)` becomes
  `round2`, round-half-to-even at two decimals.
* Images and frames are opaque tokens carrying their pixel dimensions; the
  pretrained models (YOLO predict, the depth pipeline) and the encoders
  (jpeg/mp4/base64) are abstract functions supplied by an `Env` /
  `AppModels` record, since their behaviour is external to this repository.
* `cv2.fillPoly` rasterisation is an abstract `Fill` function from the scaled
  integer polygon and the image dimensions to a pixel predicate; the claims
  are quantified over it.
* numpy arrays (`mask`, `depth_map`) are index functions; sums and means over
  them are `Finset` sums over the pixel grid.
-/

namespace NutriTracker

/-- Round-half-to-even of a rational to an integer (Python `round` ties). -/
def roundHalfEven (x : ℚ) : ℤ :=
  if x - (⌊x⌋ : ℚ) < 1/2 then ⌊x⌋
  else if (1 : ℚ)/2 < x - (⌊x⌋ : ℚ) then ⌊x⌋ + 1
  else if Even ⌊x⌋ then ⌊x⌋ else ⌊x⌋ + 1

/-- Python `round(x, 2)`: round to two decimal places, ties to even. -/
def round2 (x : ℚ) : ℚ := (roundHalfEven (x * 100) : ℚ) / 100

/-- Truncation toward zero, numpy `astype(np.int32)` on a float value. -/
def truncQ (x : ℚ) : ℤ := if 0 ≤ x then ⌊x⌋ else ⌈x⌉

/-- A dense 2-D float array (a depth map): height, width, and values. -/
structure Grid where
  h : ℕ
  w : ℕ
  val : ℕ → ℕ → ℚ

/-- The pixel coordinates (row, col) of an `h × w` array. -/
def pixels (h w : ℕ) : Finset (ℕ × ℕ) := Finset.range h ×ˢ Finset.range w

/-- An opaque image/frame: its pixel dimensions plus an identifying token
standing for the pixel contents. -/
structure Image where
  h : ℕ
  w : ℕ
  tok : ℕ

/-- Abstract `cv2.fillPoly` rasteriser: given the scaled integer polygon
vertices and the mask dimensions `h w`, decide whether pixel (row, col) is
inside the filled polygon. -/
def Fill : Type := List (ℤ × ℤ) → ℕ → ℕ → ℕ → ℕ → Bool

/-- A normalized mask polygon (`result.masks.xyn[i]`): a list of (x, y)
vertices with coordinates in [0, 1]. -/
def Polygon : Type := List (ℚ × ℚ)

/-- `(mask_polygon.reshape(-1, 2) * [w, h]).astype(np.int32)`: scale the
normalized vertices to pixel coordinates and truncate to integers. -/
def scalePoly (poly : Polygon) (w h : ℕ) : List (ℤ × ℤ) :=
  poly.map (fun p => (truncQ (p.1 * w), truncQ (p.2 * h)))

/-- The mask built by `calculate_volume`: `np.zeros` followed, when the
polygon is nonempty, by `cv2.fillPoly(mask, [poly_pixels], 1)`. -/
def buildMask (fill : Fill) (poly : Polygon) (h w : ℕ) : ℕ → ℕ → ℕ :=
  fun r c => if 0 < poly.length ∧ fill (scalePoly poly w h) h w r c then 1 else 0

/-- The pixels selected by boolean indexing `mask > 0`. -/
def maskedPixels (mask : ℕ → ℕ → ℕ) (h w : ℕ) : Finset (ℕ × ℕ) :=
  (pixels h w).filter (fun p => 0 < mask p.1 p.2)

/-- `calculate_volume(mask_polygon, depth_map, img_shape)`: 0 if the depth
map is `None`; otherwise rasterise the polygon into a 0/1 mask, take the
depth values under the mask (0 if there are none), and return
`round((np.sum(mask) * np.mean(values)) / 50000.0, 2)`. -/
def calculate_volume (fill : Fill) (mask_polygon : Polygon)
    (depth_map : Option Grid) (h w : ℕ) : ℚ :=
  match depth_map with
  | none => 0
  | some dm =>
    if (maskedPixels (buildMask fill mask_polygon h w) h w).card = 0 then 0
    else
      round2 (((∑ p ∈ pixels h w, buildMask fill mask_polygon h w p.1 p.2 : ℕ) : ℚ) *
        ((∑ p ∈ maskedPixels (buildMask fill mask_polygon h w) h w, dm.val p.1 p.2) /
          ((maskedPixels (buildMask fill mask_polygon h w) h w).card : ℚ)) / 50000)

/-- The set of pixels covered by the rasterised polygon (empty when the
polygon has no vertices), as the spec describes it. -/
def coveredPixels (fill : Fill) (poly : Polygon) (h w : ℕ) : Finset (ℕ × ℕ) :=
  if poly.length = 0 then ∅
  else (pixels h w).filter (fun p => fill (scalePoly poly w h) h w p.1 p.2)

/-- The volume heuristic as the spec words it: 0 when the depth map is
absent or the rasterised polygon covers no pixel, otherwise
`round((area_pixels * mean depth under the mask) / 50000, 2)` where
`area_pixels` is the number of covered pixels. -/
def calculate_volume_specform (fill : Fill) (poly : Polygon)
    (depth_map : Option Grid) (h w : ℕ) : ℚ :=
  match depth_map with
  | none => 0
  | some dm =>
    if coveredPixels fill poly h w = ∅ then 0
    else
      round2 (((coveredPixels fill poly h w).card : ℚ) *
        ((∑ p ∈ coveredPixels fill poly h w, dm.val p.1 p.2) /
          ((coveredPixels fill poly h w).card : ℚ)) / 50000)

/-- The multiset of values of a depth map, as a finite set (for min/max). -/
def gridVals (g : Grid) : Finset ℚ :=
  (pixels g.h g.w).image (fun p => g.val p.1 p.2)

/-- `depth_map.min()` (0 as junk value on an empty array). -/
def depth_min (g : Grid) : ℚ :=
  if hne : (gridVals g).Nonempty then (gridVals g).min' hne else 0

/-- `depth_map.max()` (0 as junk value on an empty array). -/
def depth_max (g : Grid) : ℚ :=
  if hne : (gridVals g).Nonempty then (gridVals g).max' hne else 0

/-- The divisor of the heatmap normalization in `get_depth_map`. -/
def depthDivisor (g : Grid) : ℚ := depth_max g - depth_min g

/-- `(depth_map - depth_min) / (depth_max - depth_min)`. -/
def depth_normalized (g : Grid) : ℕ → ℕ → ℚ :=
  fun r c => (g.val r c - depth_min g) / depthDivisor g

/-- The depth map is constant over the image. -/
def GridConstant (g : Grid) : Prop :=
  ∀ r ∈ Finset.range g.h, ∀ c ∈ Finset.range g.w, g.val r c = g.val 0 0

instance (g : Grid) : Decidable (GridConstant g) := by
  unfold GridConstant; infer_instance

/-- A 1 × 2 depth map with two distinct values (non-constant). -/
def gW : Grid := ⟨1, 2, fun _ c => if c = 0 then 0 else 1⟩

/-- A detected box of the YOLO result: class id (`box.cls[0]`), confidence
(`box.conf[0]`), and the bounding-box pixel width and height
(`box.xywh[0][2]`, `box.xywh[0][3]`). -/
structure Box where
  cls : ℕ
  conf : ℚ
  w : ℚ
  h : ℚ
deriving DecidableEq

/-- `model.predict(img, conf=0.25)[0]`: the detected boxes and, when the
model produced segmentations, the normalized mask polygons `masks.xyn`
(`masks` is `None` otherwise). -/
structure YoloResult where
  boxes : List Box
  masks : Option (List Polygon)

/-- Python truthiness of `result.masks`: `None` is falsy; a masks container
(which defines `__len__`) is truthy exactly when it is nonempty. -/
def masksTruthy (m : Option (List Polygon)) : Bool :=
  match m with
  | none => false
  | some xs => !xs.isEmpty

/-- The loaded YOLO segmentation model: its `names` table and its
per-image prediction function (external, hence abstract). -/
structure YoloModel where
  names : ℕ → String
  pred : Image → YoloResult

/-- The global model registry `app_models`, one field per dict key.  The
depth pipeline (processor + model + interpolation to the image size) is
abstracted as an `Image → Grid` function under the key `depth_model`. -/
structure AppModels where
  yolo : Option YoloModel
  depth_processor : Bool
  depth_model : Option (Image → Grid)
  device : Option String

/-- The registry before startup / after `app_models.clear()`. -/
def emptyAppModels : AppModels := ⟨none, false, none, none⟩

/-- The external library functions the server composes: the `cv2.fillPoly`
rasteriser and the media encoders (jpeg/mp4 + base64), all opaque to this
repository. -/
structure Env where
  fill : Fill
  encodeDepthJpeg : (ℕ → ℕ → ℚ) → ℕ → ℕ → String
  encodeAnnotatedJpeg : YoloResult → Image → String
  encodeMp4 : List Image → String

/-- `get_depth_map(img_cv2)`: `(None, None)` when `"depth_model"` is not in
`app_models`; otherwise the interpolated depth map together with the
base64 jpeg of the normalized heatmap, prefixed `data:image/jpeg;base64,`. -/
def get_depth_map (env : Env) (m : AppModels) (img : Image) :
    Option Grid × Option String :=
  match m.depth_model with
  | none => (none, none)
  | some dmodel =>
    (some (dmodel img),
      some ("data:image/jpeg;base64," ++
        env.encodeDepthJpeg (depth_normalized (dmodel img)) (dmodel img).h (dmodel img).w))

/-- One entry of the `detections` list in the responses. -/
structure Detection where
  cls : String
  confidence : ℚ
  box_ratio : ℚ
deriving DecidableEq

/-- Default values used for out-of-range list indexing in the embedding
(never reached on well-formed results). -/
def defaultBox : Box := ⟨0, 0, 0, 0⟩

def defaultDetection : Detection := ⟨"", 0, 0⟩

/-- One iteration of the detection loop of `process_image`: volume score
from `calculate_volume` when the mask polygon is nonempty, with the
2-D bounding-box area fallback `((w * h) / (img_h * img_w)) * 10` when the
score is 0. -/
def detectionFor (env : Env) (model : YoloModel) (img : Image)
    (depth_map : Option Grid) (xyn : List Polygon) (i : ℕ) (box : Box) : Detection :=
  let segments : Polygon := xyn.getD i []
  let volume_score : ℚ :=
    if 0 < segments.length then
      calculate_volume env.fill segments depth_map img.h img.w
    else 0
  { cls := model.names box.cls
    confidence := round2 box.conf
    box_ratio :=
      if volume_score = 0 then box.w * box.h / ((img.h : ℚ) * (img.w : ℚ)) * 10
      else volume_score }

/-- The JSON object returned by `process_image`. -/
structure ImageResponse where
  rtype : String
  detections : List Detection
  count : ℕ
  annotated_data : String
  depth_data : Option String
deriving DecidableEq

/-- `process_image(model, image_bytes)`: run depth, run YOLO, build one
detection per box when `result.masks` is truthy (none otherwise), and
return the annotated jpeg and depth heatmap as base64 data URLs. -/
def process_image (env : Env) (m : AppModels) (model : YoloModel)
    (img : Image) : ImageResponse :=
  let gd := get_depth_map env m img
  let result := model.pred img
  let detections : List Detection :=
    if masksTruthy result.masks then
      (List.range result.boxes.length).map
        (fun i => detectionFor env model img gd.1 (result.masks.getD []) i
          (result.boxes.getD i defaultBox))
    else []
  { rtype := "image"
    detections := detections
    count := detections.length
    annotated_data := "data:image/jpeg;base64," ++ env.encodeAnnotatedJpeg result img
    depth_data := gd.2 }

/-- `object_volumes[cls_name].append(vol)`, creating the dict entry on
first use; Python dicts preserve insertion order, so the registry is an
association list. -/
def addVolume : List (String × List ℚ) → String → ℚ → List (String × List ℚ)
  | [], k, v => [(k, [v])]
  | (k0, vs) :: rest, k, v =>
      if k0 = k then (k0, vs ++ [v]) :: rest
      else (k0, vs) :: addVolume rest k v

/-- The effect of one iteration of the `while` loop of `process_video` on
`object_volumes`: depth and volume scores are computed only when
`frame_count % 15 == 0`, and only for boxes whose mask polygon is
nonempty. -/
def frameStep (env : Env) (m : AppModels) (model : YoloModel)
    (acc : List (String × List ℚ)) (frame_count : ℕ) (frame : Image) :
    List (String × List ℚ) :=
  let result := model.pred frame
  if frame_count % 15 = 0 then
    let depth_map := (get_depth_map env m frame).1
    if masksTruthy result.masks then
      let xyn := result.masks.getD []
      (List.range result.boxes.length).foldl
        (fun a i =>
          let box := result.boxes.getD i defaultBox
          let segments : Polygon := xyn.getD i []
          if 0 < segments.length then
            addVolume a (model.names box.cls)
              (calculate_volume env.fill segments depth_map frame.h frame.w)
          else a) acc
    else acc
  else acc

/-- The full video loop: fold `frameStep` over the enumerated frames,
starting from the empty registry. -/
def videoLoop (env : Env) (m : AppModels) (model : YoloModel)
    (frames : List Image) : List (String × List ℚ) :=
  frames.enum.foldl (fun acc p => frameStep env m model acc p.1 p.2) []

/-- The JSON object returned by `process_video`; it has no `depth_data`
field. -/
structure VideoResponse where
  rtype : String
  detections : List Detection
  count : ℕ
  annotated_data : String
deriving DecidableEq

/-- `process_video(model, video_path)`: accumulate volume scores per class
over the sampled frames, then report one detection per class with the
average score (rounded to 2 decimals) and the constant confidence 0.9,
plus the annotated video as a base64 mp4 data URL. -/
def process_video (env : Env) (m : AppModels) (model : YoloModel)
    (frames : List Image) : VideoResponse :=
  let object_volumes := videoLoop env m model frames
  let final_detections : List Detection :=
    (object_volumes.filter (fun kv => decide (0 < kv.2.length))).map
      (fun kv =>
        { cls := kv.1
          confidence := (9 : ℚ) / 10
          box_ratio := round2 (kv.2.sum / (kv.2.length : ℚ)) })
  { rtype := "video"
    detections := final_detections
    count := final_detections.length
    annotated_data := "data:video/mp4;base64," ++ env.encodeMp4 frames }

/-- Python `str.startswith`: character-level prefix test. -/
def startswith (s p : String) : Bool := p.data.isPrefixOf s.data

/-- A raised `HTTPException(status_code, detail)`. -/
structure HTTPException where
  status : ℕ
  detail : String
deriving DecidableEq

/-- An upload: its declared content type, together with its decodings as
an image (`cv2.imdecode`) and as a sequence of video frames
(`cv2.VideoCapture`), whichever branch ends up being taken. -/
structure Request where
  content_type : String
  img : Image
  frames : List Image

/-- The successful JSON payload of the `/predict` endpoint. -/
inductive PredictResponse where
  | image (r : ImageResponse)
  | video (r : VideoResponse)
deriving DecidableEq

/-- The `/predict` handler: 503 when `app_models.get("yolo")` is falsy,
then dispatch on the content-type prefix, 400 for anything that is
neither image nor video. -/
def predict (env : Env) (m : AppModels) (req : Request) :
    Except HTTPException PredictResponse :=
  match m.yolo with
  | none => .error ⟨503, "Model Loading..."⟩
  | some model =>
    if startswith req.content_type "image/" then
      .ok (.image (process_image env m model req.img))
    else if startswith req.content_type "video/" then
      .ok (.video (process_video env m model req.frames))
    else
      .error ⟨400, "Chỉ hỗ trợ file ảnh hoặc video."⟩

/-- The outcome of the guarded load block in `lifespan`: the YOLO load can
fail (registry left empty), the depth pipeline load can fail (only
`"yolo"` assigned, since the depth keys are assigned after both
`from_pretrained` calls), or everything loads. -/
inductive LoadOutcome where
  | yoloFail
  | depthFail (yolo : YoloModel)
  | ok (yolo : YoloModel) (depth : Image → Grid) (device : String)

/-- The state of `app_models` after the `try` block of `lifespan` (the
exception handler only prints, so a failure leaves whatever was assigned
before it). -/
def lifespan_startup : LoadOutcome → AppModels
  | .yoloFail => emptyAppModels
  | .depthFail y =>
    { yolo := some y, depth_processor := false, depth_model := none, device := none }
  | .ok y d dev =>
    { yolo := some y, depth_processor := true, depth_model := some d, device := some dev }

/-- After `yield`, the handler runs `app_models.clear()`. -/
def lifespan_shutdown (_ : AppModels) : AppModels := emptyAppModels

/-- `predict` as a transformer of the `app_models` registry: the handler
only reads the registry (via `app_models.get`) and never assigns into it,
so its effect on the registry is the identity. -/
def predict_st (env : Env) (m : AppModels) (req : Request) :
    AppModels × Except HTTPException PredictResponse :=
  (m, predict env m req)

/-- `process_image` as a registry transformer (reads only, via
`get_depth_map`). -/
def process_image_st (env : Env) (m : AppModels) (model : YoloModel)
    (img : Image) : AppModels × ImageResponse :=
  (m, process_image env m model img)

/-- `process_video` as a registry transformer (reads only). -/
def process_video_st (env : Env) (m : AppModels) (model : YoloModel)
    (frames : List Image) : AppModels × VideoResponse :=
  (m, process_video env m model frames)

/-- `get_depth_map` as a registry transformer (reads only). -/
def get_depth_map_st (env : Env) (m : AppModels) (img : Image) :
    AppModels × (Option Grid × Option String) :=
  (m, get_depth_map env m img)

/-- `calculate_volume` as a registry transformer (does not touch the
registry at all). -/
def calculate_volume_st (m : AppModels) (fill : Fill) (poly : Polygon)
    (dm : Option Grid) (h w : ℕ) : AppModels × ℚ :=
  (m, calculate_volume fill poly dm h w)

/-- Concrete rasteriser covering every pixel, for witnesses. -/
def fillAll : Fill := fun _ _ _ _ _ => true

/-- Concrete environment with token encoders, for witnesses. -/
def envW : Env := ⟨fillAll, fun _ _ _ => "DEPTH", fun _ _ => "ANNOT", fun _ => "VID"⟩

/-- A concrete 10 × 10 image. -/
def imgW : Image := ⟨10, 10, 0⟩

/-- A concrete nonempty normalized mask polygon. -/
def triPoly : Polygon := [(0, 0), (1, 0), (1, 1)]

/-- A concrete detected box: class 0, confidence 0.9, 5 × 5 pixels. -/
def boxW : Box := ⟨0, 9/10, 5, 5⟩

/-- A concrete model detecting `boxW` with mask `triPoly` on any image. -/
def yoloW : YoloModel := ⟨fun _ => "apple", fun _ => ⟨[boxW], some [triPoly]⟩⟩

/-- Concrete constant depth pipeline. -/
def depthFull : Image → Grid := fun img => ⟨img.h, img.w, fun _ _ => 1⟩

/-- Registry with YOLO loaded but the depth pipeline missing (the
`lifespan` outcome where the depth load raised). -/
def modelsNoDepth : AppModels := ⟨some yoloW, false, none, none⟩

/-- Registry with everything loaded. -/
def modelsFull : AppModels := ⟨some yoloW, true, some depthFull, some "cpu"⟩

/-- Concrete requests of the three content-type shapes. -/
def reqText : Request := ⟨"text/plain", imgW, []⟩

def reqImage : Request := ⟨"image/jpeg", imgW, []⟩

def reqVideo : Request := ⟨"video/mp4", imgW, [imgW]⟩

/-- The value list stored in `object_volumes` for class `c` (empty when
the class has no entry yet). -/
def volsOf (acc : List (String × List ℚ)) (c : String) : List ℚ :=
  match acc.find? (fun kv => decide (kv.1 = c)) with
  | some kv => kv.2
  | none => []

/-- Well-formedness of the `object_volumes` accumulator: one entry per
class name, every stored list nonempty.  `addVolume` maintains this from
the empty dict. -/
def goodAcc (acc : List (String × List ℚ)) : Prop :=
  (acc.map Prod.fst).Nodup ∧ ∀ kv ∈ acc, kv.2 ≠ []

/-- The volume scores computed for class `c` on a single frame, as the
claim words it: nothing unless the masks are truthy, otherwise one score
per detected box of class `c` whose mask polygon is nonempty. -/
def frameClassVols (env : Env) (m : AppModels) (model : YoloModel)
    (frame : Image) (c : String) : List ℚ :=
  if masksTruthy (model.pred frame).masks then
    ((List.range (model.pred frame).boxes.length).filter (fun i =>
        decide (0 < ((((model.pred frame).masks.getD []).getD i [] : Polygon)).length ∧
          model.names ((model.pred frame).boxes.getD i defaultBox).cls = c))).map
      (fun i => calculate_volume env.fill (((model.pred frame).masks.getD []).getD i [])
        (get_depth_map env m frame).1 frame.h frame.w)
  else []

/-- The volume scores computed for class `c` over a whole video, as the
claim words it: only frames whose index satisfies `% 15 == 0` contribute. -/
def classVolumes (env : Env) (m : AppModels) (model : YoloModel)
    (frames : List Image) (c : String) : List ℚ :=
  (frames.enum.filter (fun p => decide (p.1 % 15 = 0))).flatMap
    (fun p => frameClassVols env m model p.2 c)

theorem maskedPixels_buildMask (fill : Fill) (poly : Polygon) (h w : ℕ) :
    maskedPixels (buildMask fill poly h w) h w = coveredPixels fill poly h w := by
  unfold maskedPixels buildMask coveredPixels
  by_cases hp : poly.length = 0
  · simp [hp]
  · have hp' : 0 < poly.length := Nat.pos_of_ne_zero hp
    rw [if_neg hp]
    apply Finset.filter_congr
    intro p _
    constructor
    · intro hpos
      by_contra hf
      simp [hp', hf] at hpos
    · intro hf
      simp [hp', hf]

theorem sum_buildMask (fill : Fill) (poly : Polygon) (h w : ℕ) :
    ∑ p ∈ pixels h w, buildMask fill poly h w p.1 p.2 =
      (coveredPixels fill poly h w).card := by
  unfold buildMask coveredPixels
  by_cases hp : poly.length = 0
  · simp [hp]
  · have hp' : 0 < poly.length := Nat.pos_of_ne_zero hp
    rw [if_neg hp, Finset.card_filter]
    apply Finset.sum_congr rfl
    intro p _
    simp [hp']

/-- Claim C1: for every mask polygon and depth map, `calculate_volume`
returns 0 when the depth map is `None` or the rasterised polygon covers no
pixel, and otherwise returns `round((area_pixels * mean depth under the
mask) / 50000, 2)` where `area_pixels` is the number of pixels inside the
polygon scaled to the image dimensions. -/
theorem C1_calculate_volume_matches_spec (fill : Fill) (poly : Polygon)
    (dm : Option Grid) (h w : ℕ) :
    calculate_volume fill poly dm h w = calculate_volume_specform fill poly dm h w := by
  cases dm with
  | none => rfl
  | some g =>
    simp only [calculate_volume, calculate_volume_specform]
    rw [maskedPixels_buildMask, sum_buildMask]
    by_cases hc : coveredPixels fill poly h w = ∅
    · simp [hc]
    · rw [if_neg hc, if_neg (fun h0 => hc (Finset.card_eq_zero.mp h0))]

theorem mem_gridVals (g : Grid) {r c : ℕ} (hr : r < g.h) (hc : c < g.w) :
    g.val r c ∈ gridVals g := by
  unfold gridVals
  have hmem : (r, c) ∈ pixels g.h g.w := by
    simp [pixels, hr, hc]
  exact Finset.mem_image_of_mem _ hmem

theorem depthDivisor_eq_zero_iff (g : Grid) (hh : 0 < g.h) (hw : 0 < g.w) :
    depthDivisor g = 0 ↔ GridConstant g := by
  have hne : (gridVals g).Nonempty := ⟨g.val 0 0, mem_gridVals g hh hw⟩
  unfold depthDivisor depth_min depth_max
  rw [dif_pos hne, dif_pos hne, sub_eq_zero]
  constructor
  · intro heq r hr c hc
    rw [Finset.mem_range] at hr hc
    have h1 := Finset.min'_le _ _ (mem_gridVals g hr hc)
    have h2 := Finset.le_max' _ _ (mem_gridVals g hr hc)
    have h3 := Finset.min'_le _ _ (mem_gridVals g hh hw)
    have h4 := Finset.le_max' _ _ (mem_gridVals g hh hw)
    linarith
  · intro hconst
    have hall : ∀ x ∈ gridVals g, x = g.val 0 0 := by
      intro x hx
      rcases Finset.mem_image.mp hx with ⟨p, hp, rfl⟩
      rcases Finset.mem_product.mp hp with ⟨hp1, hp2⟩
      exact hconst p.1 hp1 p.2 hp2
    rw [hall _ (Finset.max'_mem _ hne), hall _ (Finset.min'_mem _ hne)]

/-- Claim C9: for every image passed to `get_depth_map` while the depth
model is loaded, the heatmap normalization divisor `depth_max - depth_min`
is nonzero exactly when the predicted depth map is non-constant; the
division is free of division by zero only under that precondition. -/
theorem C9_normalization_divisor (g : Grid) (hh : 0 < g.h) (hw : 0 < g.w) :
    depthDivisor g ≠ 0 ↔ ¬ GridConstant g :=
  not_congr (depthDivisor_eq_zero_iff g hh hw)

theorem not_gridConstant_gW : ¬ GridConstant gW := by
  intro hcon
  have h01 : (1 : ℚ) = 0 := hcon 0 (by decide) 1 (by decide)
  norm_num at h01

theorem C9_normalization_divisor_witness :
    0 < gW.h ∧ 0 < gW.w ∧ depthDivisor gW ≠ 0 :=
  ⟨by decide, by decide,
    (C9_normalization_divisor gW (by decide) (by decide)).mpr not_gridConstant_gW⟩

/-- Claim C7: in both `process_image` and `process_video` responses, the
`count` field equals the length of the `detections` list. -/
theorem C7_count_matches_detections (env : Env) (m : AppModels)
    (model : YoloModel) (img : Image) (frames : List Image) :
    (process_image env m model img).count =
      (process_image env m model img).detections.length ∧
    (process_video env m model frames).count =
      (process_video env m model frames).detections.length :=
  ⟨rfl, rfl⟩

/-- Claim C4, counterexample: with the YOLO model loaded but the depth
model missing, an image upload is processed successfully yet its
`depth_data` field is `None` rather than a `data:image/jpeg;base64,`
string, contradicting the claim as stated. -/
theorem C4_counterexample :
    ¬ ∃ rest, (process_image envW modelsNoDepth yoloW imgW).depth_data =
        some ("data:image/jpeg;base64," ++ rest) := by
  rintro ⟨rest, hr⟩
  rw [show (process_image envW modelsNoDepth yoloW imgW).depth_data = none from rfl] at hr
  exact Option.noConfusion hr

/-- Claim C4 (amended): image responses carry an `annotated_data` with
prefix `data:image/jpeg;base64,`; `depth_data` carries the same prefix
when the depth model is loaded and is `None` otherwise; video responses
carry an `annotated_data` with prefix `data:video/mp4;base64,` and have no
`depth_data` field (the `VideoResponse` shape has none). -/
theorem C4_amended_media_prefixes (env : Env) (m : AppModels)
    (model : YoloModel) (img : Image) (frames : List Image) :
    (∃ rest, (process_image env m model img).annotated_data =
        "data:image/jpeg;base64," ++ rest) ∧
    (m.depth_model = none → (process_image env m model img).depth_data = none) ∧
    (∀ d, m.depth_model = some d →
      ∃ rest, (process_image env m model img).depth_data =
          some ("data:image/jpeg;base64," ++ rest)) ∧
    (∃ rest, (process_video env m model frames).annotated_data =
        "data:video/mp4;base64," ++ rest) := by
  refine ⟨⟨env.encodeAnnotatedJpeg (model.pred img) img, rfl⟩, ?_, ?_,
    ⟨env.encodeMp4 frames, rfl⟩⟩
  · intro hd
    show (get_depth_map env m img).2 = none
    unfold get_depth_map
    rw [hd]
  · intro d hd
    show ∃ rest, (get_depth_map env m img).2 =
      some ("data:image/jpeg;base64," ++ rest)
    unfold get_depth_map
    rw [hd]
    exact ⟨_, rfl⟩

theorem C4_amended_media_prefixes_witness :
    modelsFull.depth_model = some depthFull ∧
    ∃ rest, (process_image envW modelsFull yoloW imgW).depth_data =
        some ("data:image/jpeg;base64," ++ rest) :=
  ⟨rfl, (C4_amended_media_prefixes envW modelsFull yoloW imgW []).2.2.1 depthFull rfl⟩

/-- Claim C3, counterexample: a request whose content type starts with
neither `image/` nor `video/`, made while the YOLO model is not loaded, is
answered with 503, not with the 400 the claim promises for every such
request. -/
theorem C3_counterexample :
    predict envW emptyAppModels reqText = .error ⟨503, "Model Loading..."⟩ ∧
    startswith reqText.content_type "image/" = false ∧
    startswith reqText.content_type "video/" = false ∧
    (503 : ℕ) ≠ 400 :=
  ⟨rfl, by decide, by decide, by decide⟩

/-- Claim C3 (amended): the model check takes precedence — every request
made while the YOLO model is not loaded gets 503; a request with a
content type starting with neither `image/` nor `video/` gets 400 when
the model is loaded; and every error `predict` itself raises is one of
these two HTTP statuses. -/
theorem C3_amended_predict_errors (env : Env) (m : AppModels) (req : Request) :
    (m.yolo = none → predict env m req = .error ⟨503, "Model Loading..."⟩) ∧
    (∀ model, m.yolo = some model →
      startswith req.content_type "image/" = false →
      startswith req.content_type "video/" = false →
      predict env m req = .error ⟨400, "Chỉ hỗ trợ file ảnh hoặc video."⟩) ∧
    (∀ e, predict env m req = .error e → e.status = 503 ∨ e.status = 400) := by
  refine ⟨?_, ?_, ?_⟩
  · intro hy
    unfold predict
    rw [hy]
  · intro model hy h1 h2
    unfold predict
    rw [hy]
    simp [h1, h2]
  · intro e he
    unfold predict at he
    cases hy : m.yolo with
    | none =>
      rw [hy] at he
      injection he with h1
      rw [← h1]
      left
      rfl
    | some model =>
      rw [hy] at he
      have he2 : (if startswith req.content_type "image/" = true then
            Except.ok (PredictResponse.image (process_image env m model req.img))
          else if startswith req.content_type "video/" = true then
            Except.ok (PredictResponse.video (process_video env m model req.frames))
          else Except.error ⟨400, "Chỉ hỗ trợ file ảnh hoặc video."⟩) =
            Except.error e := he
      by_cases h1 : startswith req.content_type "image/" = true
      · rw [if_pos h1] at he2
        exact Except.noConfusion he2
      · rw [if_neg h1] at he2
        by_cases h2 : startswith req.content_type "video/" = true
        · rw [if_pos h2] at he2
          exact Except.noConfusion he2
        · rw [if_neg h2] at he2
          injection he2 with h3
          rw [← h3]
          right
          rfl

theorem C3_amended_predict_errors_witness :
    emptyAppModels.yolo = none ∧
    predict envW emptyAppModels reqText = .error ⟨503, "Model Loading..."⟩ :=
  ⟨rfl, (C3_amended_predict_errors envW emptyAppModels reqText).1 rfl⟩

/-- Claim C6: the request-path functions only read the `app_models`
registry — as registry transformers they are the identity — the lifespan
shutdown clears it, and a request arriving with no YOLO model loaded is
rejected with 503 (the registry still unchanged) instead of triggering a
load. -/
theorem C6_registry_frame (env : Env) (m : AppModels) (model : YoloModel)
    (img : Image) (frames : List Image) (req : Request) (fill : Fill)
    (poly : Polygon) (dm : Option Grid) (h w : ℕ) :
    (predict_st env m req).1 = m ∧
    (process_image_st env m model img).1 = m ∧
    (process_video_st env m model frames).1 = m ∧
    (get_depth_map_st env m img).1 = m ∧
    (calculate_volume_st m fill poly dm h w).1 = m ∧
    lifespan_shutdown m = emptyAppModels ∧
    (m.yolo = none →
      (predict_st env m req).2 = .error ⟨503, "Model Loading..."⟩) := by
  refine ⟨rfl, rfl, rfl, rfl, rfl, rfl, ?_⟩
  intro hy
  show predict env m req = _
  unfold predict
  rw [hy]

theorem C6_registry_frame_witness :
    (predict_st envW emptyAppModels reqImage).1 = emptyAppModels ∧
    (predict_st envW emptyAppModels reqImage).2 = .error ⟨503, "Model Loading..."⟩ :=
  ⟨(C6_registry_frame envW emptyAppModels yoloW imgW [] reqImage fillAll [] none 0 0).1,
   (C6_registry_frame envW emptyAppModels yoloW imgW [] reqImage fillAll [] none 0 0).2.2.2.2.2.2
     rfl⟩

theorem getD_map_range {α : Type} (f : ℕ → α) {n i : ℕ} (hi : i < n) (d : α) :
    ((List.range n).map f).getD i d = f i := by
  rw [List.getD_eq_getElem?_getD, List.getElem?_map, List.getElem?_range hi]
  rfl

theorem process_image_detections (env : Env) (m : AppModels)
    (model : YoloModel) (img : Image) :
    (process_image env m model img).detections =
      if masksTruthy (model.pred img).masks then
        (List.range (model.pred img).boxes.length).map
          (fun i => detectionFor env model img (get_depth_map env m img).1
            ((model.pred img).masks.getD []) i ((model.pred img).boxes.getD i defaultBox))
      else [] := rfl

/-- Claim C5: when the segmentation result has masks the image response
holds one detection per box, with the model's class name for that box and
the confidence rounded to 2 decimals (plus a box_ratio field); when it has
no masks, detections is empty even if boxes were detected. -/
theorem C5_detections_shape (env : Env) (m : AppModels) (model : YoloModel)
    (img : Image) :
    (masksTruthy (model.pred img).masks = false →
      (process_image env m model img).detections = []) ∧
    (masksTruthy (model.pred img).masks = true →
      (process_image env m model img).detections.length =
        (model.pred img).boxes.length ∧
      ∀ i, i < (model.pred img).boxes.length →
        ((process_image env m model img).detections.getD i defaultDetection).cls =
          model.names ((model.pred img).boxes.getD i defaultBox).cls ∧
        ((process_image env m model img).detections.getD i defaultDetection).confidence =
          round2 ((model.pred img).boxes.getD i defaultBox).conf) := by
  constructor
  · intro hm
    rw [process_image_detections, if_neg (by simp [hm])]
  · intro hm
    rw [process_image_detections, if_pos hm]
    refine ⟨by rw [List.length_map, List.length_range], ?_⟩
    intro i hi
    rw [getD_map_range _ hi]
    exact ⟨rfl, rfl⟩

theorem C5_detections_shape_witness :
    masksTruthy (yoloW.pred imgW).masks = true ∧
    (process_image envW modelsNoDepth yoloW imgW).detections.length =
      (yoloW.pred imgW).boxes.length ∧
    ((process_image envW modelsNoDepth yoloW imgW).detections.getD 0
      defaultDetection).cls = "apple" := by
  refine ⟨rfl, ((C5_detections_shape envW modelsNoDepth yoloW imgW).2 rfl).1, ?_⟩
  have h := (((C5_detections_shape envW modelsNoDepth yoloW imgW).2 rfl).2 0
    (by decide)).1
  rw [h]
  rfl

/-- Claim C2, counterexample: with the depth model missing, the single
detection of a processed image carries `box_ratio = 5/2` — the 2-D
bounding-box fallback — while the depth-weighted volume score
`calculate_volume` for that object is 0, so `box_ratio` is not the volume
score. -/
theorem C2_counterexample :
    (process_image envW modelsNoDepth yoloW imgW).detections.map
      Detection.box_ratio = [5/2] ∧
    calculate_volume envW.fill triPoly
      (get_depth_map envW modelsNoDepth imgW).1 imgW.h imgW.w = 0 ∧
    (5 : ℚ)/2 ≠ 0 := by
  refine ⟨?_, rfl, by norm_num⟩
  have hdet : (process_image envW modelsNoDepth yoloW imgW).detections =
      [detectionFor envW yoloW imgW none [triPoly] 0 boxW] := rfl
  have hbr : (detectionFor envW yoloW imgW none [triPoly] 0 boxW).box_ratio = 5/2 := by
    show (if calculate_volume envW.fill triPoly none imgW.h imgW.w = 0
        then boxW.w * boxW.h / ((imgW.h : ℚ) * (imgW.w : ℚ)) * 10
        else calculate_volume envW.fill triPoly none imgW.h imgW.w) = 5/2
    rw [show calculate_volume envW.fill triPoly none imgW.h imgW.w = 0 from rfl]
    norm_num [boxW, imgW]
  rw [hdet, List.map_cons, List.map_nil, hbr]

/-- Claim C2 (amended): each detection's `box_ratio` is the depth-weighted
volume score of its mask polygon when that score is nonzero, and falls
back to the 2-D bounding-box area ratio `((w * h) / (img_h * img_w)) * 10`
when the score is zero (empty polygon, missing depth map, or a score that
rounds to zero). -/
theorem C2_amended_box_ratio (env : Env) (m : AppModels) (model : YoloModel)
    (img : Image) (i : ℕ)
    (hi : i < (process_image env m model img).detections.length) :
    ((process_image env m model img).detections.getD i defaultDetection).box_ratio =
      if (if 0 < ((((model.pred img).masks.getD []).getD i [] : Polygon)).length then
            calculate_volume env.fill (((model.pred img).masks.getD []).getD i [])
              (get_depth_map env m img).1 img.h img.w
          else 0) = 0
      then ((model.pred img).boxes.getD i defaultBox).w *
            ((model.pred img).boxes.getD i defaultBox).h /
            ((img.h : ℚ) * (img.w : ℚ)) * 10
      else (if 0 < ((((model.pred img).masks.getD []).getD i [] : Polygon)).length then
            calculate_volume env.fill (((model.pred img).masks.getD []).getD i [])
              (get_depth_map env m img).1 img.h img.w
          else 0) := by
  rw [process_image_detections] at hi ⊢
  by_cases hm : masksTruthy (model.pred img).masks = true
  · rw [if_pos hm] at hi ⊢
    rw [List.length_map, List.length_range] at hi
    rw [getD_map_range _ hi]
    rfl
  · rw [if_neg hm] at hi
    exact absurd hi (by simp)

theorem C2_amended_box_ratio_witness :
    0 < (process_image envW modelsNoDepth yoloW imgW).detections.length ∧
    ((process_image envW modelsNoDepth yoloW imgW).detections.getD 0
      defaultDetection).box_ratio = 5/2 := by
  refine ⟨by decide, ?_⟩
  rw [C2_amended_box_ratio envW modelsNoDepth yoloW imgW 0 (by decide)]
  rw [show (((yoloW.pred imgW).masks.getD []).getD 0 [] : Polygon) = triPoly from rfl,
    show (get_depth_map envW modelsNoDepth imgW).1 = none from rfl,
    show ((yoloW.pred imgW).boxes.getD 0 defaultBox) = boxW from rfl,
    show calculate_volume envW.fill triPoly none imgW.h imgW.w = 0 from rfl]
  norm_num [boxW, imgW, triPoly]

theorem addVolume_nil (k : String) (v : ℚ) : addVolume [] k v = [(k, [v])] := rfl

theorem addVolume_cons (k0 : String) (vs : List ℚ) (rest : List (String × List ℚ))
    (k : String) (v : ℚ) :
    addVolume ((k0, vs) :: rest) k v =
      if k0 = k then (k0, vs ++ [v]) :: rest
      else (k0, vs) :: addVolume rest k v := rfl

theorem volsOf_nil (c : String) : volsOf [] c = [] := rfl

theorem volsOf_cons (k : String) (vs : List ℚ) (rest : List (String × List ℚ))
    (c : String) :
    volsOf ((k, vs) :: rest) c = if k = c then vs else volsOf rest c := by
  unfold volsOf
  by_cases h : k = c
  · rw [if_pos h,
      show (((k, vs) :: rest).find? (fun kv => decide (kv.1 = c))) = some (k, vs) by
        simp [List.find?, h]]
  · rw [if_neg h,
      show (((k, vs) :: rest).find? (fun kv => decide (kv.1 = c))) =
          rest.find? (fun kv => decide (kv.1 = c)) by
        simp [List.find?, h]]

theorem volsOf_addVolume (acc : List (String × List ℚ)) (k : String) (v : ℚ)
    (c : String) :
    volsOf (addVolume acc k v) c = volsOf acc c ++ (if k = c then [v] else []) := by
  induction acc with
  | nil =>
    rw [addVolume_nil, volsOf_nil, volsOf_cons, List.nil_append]
    by_cases h : k = c
    · rw [if_pos h, if_pos h]
    · rw [if_neg h, if_neg h, volsOf_nil]
  | cons kv rest ih =>
    obtain ⟨k0, vs⟩ := kv
    rw [addVolume_cons]
    by_cases h0 : k0 = k
    · rw [if_pos h0, volsOf_cons, volsOf_cons]
      by_cases hc : k0 = c
      · rw [if_pos hc, if_pos hc, if_pos (h0.symm.trans hc)]
      · rw [if_neg hc, if_neg hc, if_neg (fun hkc => hc (h0.trans hkc)), List.append_nil]
    · rw [if_neg h0, volsOf_cons, volsOf_cons]
      by_cases hc : k0 = c
      · rw [if_pos hc, if_pos hc, if_neg (fun hkc => h0 (hc.trans hkc.symm)), List.append_nil]
      · rw [if_neg hc, if_neg hc, ih]

theorem mem_keys_addVolume (k : String) (v : ℚ) (x : String) :
    ∀ acc : List (String × List ℚ), x ∈ (addVolume acc k v).map Prod.fst →
      x ∈ acc.map Prod.fst ∨ x = k := by
  intro acc
  induction acc with
  | nil =>
    intro hx
    rw [addVolume_nil] at hx
    simp at hx
    right
    exact hx
  | cons kv rest ih =>
    obtain ⟨k0, vs⟩ := kv
    intro hx
    rw [addVolume_cons] at hx
    by_cases h0 : k0 = k
    · rw [if_pos h0] at hx
      left
      simpa using hx
    · rw [if_neg h0, List.map_cons] at hx
      rcases List.mem_cons.mp hx with h | h
      · left
        rw [List.map_cons]
        exact List.mem_cons.mpr (Or.inl h)
      · rcases ih h with h2 | h2
        · left
          rw [List.map_cons]
          exact List.mem_cons.mpr (Or.inr h2)
        · right
          exact h2

theorem goodAcc_nil : goodAcc [] :=
  ⟨List.nodup_nil, by intro kv h; cases h⟩

theorem goodAcc_addVolume (k : String) (v : ℚ) :
    ∀ acc : List (String × List ℚ), goodAcc acc → goodAcc (addVolume acc k v) := by
  intro acc
  induction acc with
  | nil =>
    intro _
    rw [addVolume_nil]
    refine ⟨by simp, ?_⟩
    intro kv hkv
    rw [List.mem_singleton] at hkv
    rw [hkv]
    simp
  | cons kv0 rest ih =>
    obtain ⟨k0, vs⟩ := kv0
    intro hg
    have hnd := List.nodup_cons.mp hg.1
    have hgrest : goodAcc rest :=
      ⟨hnd.2, fun kv h => hg.2 kv (List.mem_cons.mpr (Or.inr h))⟩
    rw [addVolume_cons]
    by_cases h0 : k0 = k
    · rw [if_pos h0]
      refine ⟨?_, ?_⟩
      · rw [List.map_cons]
        exact List.nodup_cons.mpr hnd
      · intro kv hkv
        rcases List.mem_cons.mp hkv with h | h
        · rw [h]
          simp
        · exact hg.2 kv (List.mem_cons.mpr (Or.inr h))
    · rw [if_neg h0]
      refine ⟨?_, ?_⟩
      · rw [List.map_cons]
        refine List.nodup_cons.mpr ⟨?_, (ih hgrest).1⟩
        intro hk0
        rcases mem_keys_addVolume k v k0 rest hk0 with h | h
        · exact hnd.1 h
        · exact h0 h
      · intro kv hkv
        rcases List.mem_cons.mp hkv with h | h
        · rw [h]
          exact hg.2 (k0, vs) (List.mem_cons.mpr (Or.inl rfl))
        · exact (ih hgrest).2 kv h

theorem goodAcc_foldl {β : Type} (step : List (String × List ℚ) → β → List (String × List ℚ))
    (hstep : ∀ a b, goodAcc a → goodAcc (step a b)) :
    ∀ (l : List β) (a : List (String × List ℚ)), goodAcc a → goodAcc (l.foldl step a) := by
  intro l
  induction l with
  | nil => intro a ha; exact ha
  | cons b l ih =>
    intro a ha
    rw [List.foldl_cons]
    exact ih _ (hstep a b ha)

theorem frameStep_eq (env : Env) (m : AppModels) (model : YoloModel)
    (acc : List (String × List ℚ)) (fc : ℕ) (frame : Image) :
    frameStep env m model acc fc frame =
      if fc % 15 = 0 then
        (if masksTruthy (model.pred frame).masks then
          (List.range (model.pred frame).boxes.length).foldl
            (fun a i =>
              if 0 < ((((model.pred frame).masks.getD []).getD i [] : Polygon)).length then
                addVolume a (model.names ((model.pred frame).boxes.getD i defaultBox).cls)
                  (calculate_volume env.fill (((model.pred frame).masks.getD []).getD i [])
                    (get_depth_map env m frame).1 frame.h frame.w)
              else a) acc
        else acc)
      else acc := rfl

theorem goodAcc_frameStep (env : Env) (m : AppModels) (model : YoloModel)
    (acc : List (String × List ℚ)) (fc : ℕ) (frame : Image)
    (h : goodAcc acc) : goodAcc (frameStep env m model acc fc frame) := by
  rw [frameStep_eq]
  by_cases h15 : fc % 15 = 0
  · rw [if_pos h15]
    by_cases hm : masksTruthy (model.pred frame).masks = true
    · rw [if_pos hm]
      refine goodAcc_foldl _ ?_ _ _ h
      intro a i ha
      dsimp only
      by_cases hseg : 0 < ((((model.pred frame).masks.getD []).getD i [] : Polygon)).length
      · rw [if_pos hseg]
        exact goodAcc_addVolume _ _ a ha
      · rw [if_neg hseg]
        exact ha
    · rw [if_neg hm]
      exact h
  · rw [if_neg h15]
    exact h

theorem goodAcc_videoLoop (env : Env) (m : AppModels) (model : YoloModel)
    (frames : List Image) : goodAcc (videoLoop env m model frames) := by
  unfold videoLoop
  refine goodAcc_foldl _ ?_ _ _ goodAcc_nil
  intro a p ha
  exact goodAcc_frameStep env m model a p.1 p.2 ha

theorem volsOf_foldl_addVolume (cond : ℕ → Prop) [DecidablePred cond]
    (key : ℕ → String) (val : ℕ → ℚ) (c : String) :
    ∀ (is : List ℕ) (acc : List (String × List ℚ)),
    volsOf (is.foldl (fun a i => if cond i then addVolume a (key i) (val i) else a) acc) c =
      volsOf acc c ++ (is.filter (fun i => decide (cond i ∧ key i = c))).map val := by
  intro is
  induction is with
  | nil =>
    intro acc
    simp
  | cons i is ih =>
    intro acc
    rw [List.foldl_cons, List.filter_cons]
    by_cases hci : cond i
    · rw [if_pos hci, ih, volsOf_addVolume]
      by_cases hk : key i = c
      · simp [hci, hk]
      · simp [hci, hk]
    · rw [if_neg hci, ih]
      simp [hci]

theorem volsOf_frameStep (env : Env) (m : AppModels) (model : YoloModel)
    (acc : List (String × List ℚ)) (fc : ℕ) (frame : Image) (c : String) :
    volsOf (frameStep env m model acc fc frame) c =
      volsOf acc c ++ (if fc % 15 = 0 then frameClassVols env m model frame c else []) := by
  rw [frameStep_eq]
  unfold frameClassVols
  by_cases h15 : fc % 15 = 0
  · rw [if_pos h15, if_pos h15]
    by_cases hm : masksTruthy (model.pred frame).masks = true
    · rw [if_pos hm, if_pos hm]
      exact volsOf_foldl_addVolume
        (fun i => 0 < ((((model.pred frame).masks.getD []).getD i [] : Polygon)).length)
        (fun i => model.names ((model.pred frame).boxes.getD i defaultBox).cls)
        (fun i => calculate_volume env.fill (((model.pred frame).masks.getD []).getD i [])
          (get_depth_map env m frame).1 frame.h frame.w) c
        (List.range (model.pred frame).boxes.length) acc
    · rw [if_neg hm, if_neg hm, List.append_nil]
  · rw [if_neg h15, if_neg h15, List.append_nil]

theorem volsOf_foldl_frameStep (env : Env) (m : AppModels) (model : YoloModel)
    (c : String) :
    ∀ (ps : List (ℕ × Image)) (acc : List (String × List ℚ)),
    volsOf (ps.foldl (fun a p => frameStep env m model a p.1 p.2) acc) c =
      volsOf acc c ++
        (ps.filter (fun p => decide (p.1 % 15 = 0))).flatMap
          (fun p => frameClassVols env m model p.2 c) := by
  intro ps
  induction ps with
  | nil =>
    intro acc
    simp
  | cons p ps ih =>
    intro acc
    rw [List.foldl_cons, ih, volsOf_frameStep, List.filter_cons]
    by_cases h15 : p.1 % 15 = 0
    · simp [h15, List.append_assoc]
    · simp [h15]

theorem volsOf_videoLoop (env : Env) (m : AppModels) (model : YoloModel)
    (frames : List Image) (c : String) :
    volsOf (videoLoop env m model frames) c = classVolumes env m model frames c := by
  unfold videoLoop classVolumes
  rw [volsOf_foldl_frameStep]
  rfl

theorem volsOf_eq_of_mem :
    ∀ acc : List (String × List ℚ), goodAcc acc →
      ∀ kv ∈ acc, volsOf acc kv.1 = kv.2 := by
  intro acc
  induction acc with
  | nil =>
    intro _ kv hkv
    cases hkv
  | cons a rest ih =>
    intro hg kv hkv
    obtain ⟨k0, vs⟩ := a
    have hnd := List.nodup_cons.mp hg.1
    rcases List.mem_cons.mp hkv with h | h
    · rw [h, volsOf_cons]
      simp
    · rw [volsOf_cons]
      have hk0 : k0 ≠ kv.1 := by
        intro he
        have hmem : kv.1 ∈ rest.map Prod.fst := List.mem_map_of_mem Prod.fst h
        rw [← he] at hmem
        exact hnd.1 hmem
      rw [if_neg hk0]
      exact ih ⟨hnd.2, fun kv2 h2 => hg.2 kv2 (List.mem_cons.mpr (Or.inr h2))⟩ kv h

theorem volsOf_ne_nil_iff (acc : List (String × List ℚ)) (hg : goodAcc acc)
    (c : String) :
    volsOf acc c ≠ [] ↔ ∃ kv ∈ acc, kv.1 = c := by
  constructor
  · intro hne
    unfold volsOf at hne
    cases hf : acc.find? (fun kv => decide (kv.1 = c)) with
    | none =>
      rw [hf] at hne
      exact absurd rfl hne
    | some kv =>
      exact ⟨kv, List.mem_of_find?_eq_some hf,
        of_decide_eq_true (@List.find?_some _ (fun kv2 => decide (kv2.1 = c)) kv acc hf)⟩
  · rintro ⟨kv, hmem, hk⟩
    have h1 : volsOf acc c = kv.2 := by
      rw [← hk]
      exact volsOf_eq_of_mem acc hg kv hmem
    rw [h1]
    exact hg.2 kv hmem

/-- Claim C8: in a video response, depth-based volume scores are collected
only on frames whose index satisfies `% 15 == 0` and only for boxes with a
nonempty mask polygon; a class appears in `detections` iff at least one
such score was computed for it, its `box_ratio` is the arithmetic mean of
those scores rounded to 2 decimals, and its `confidence` is the constant
0.9. -/
theorem C8_video_average (env : Env) (m : AppModels) (model : YoloModel)
    (frames : List Image) (c : String) :
    ((∃ d ∈ (process_video env m model frames).detections, d.cls = c) ↔
      classVolumes env m model frames c ≠ []) ∧
    (∀ d ∈ (process_video env m model frames).detections, d.cls = c →
      d.confidence = 9/10 ∧
      d.box_ratio = round2 ((classVolumes env m model frames c).sum /
        ((classVolumes env m model frames c).length : ℚ))) := by
  have hg := goodAcc_videoLoop env m model frames
  have hfilter : (videoLoop env m model frames).filter
      (fun kv => decide (0 < kv.2.length)) = videoLoop env m model frames := by
    apply List.filter_eq_self.mpr
    intro kv hkv
    rw [decide_eq_true_eq, List.length_pos]
    exact hg.2 kv hkv
  have hdets : (process_video env m model frames).detections =
      (videoLoop env m model frames).map
        (fun kv => (⟨kv.1, (9 : ℚ)/10, round2 (kv.2.sum / (kv.2.length : ℚ))⟩ : Detection)) := by
    rw [show (process_video env m model frames).detections =
      ((videoLoop env m model frames).filter (fun kv => decide (0 < kv.2.length))).map
        (fun kv => (⟨kv.1, (9 : ℚ)/10, round2 (kv.2.sum / (kv.2.length : ℚ))⟩ : Detection))
      from rfl, hfilter]
  constructor
  · rw [hdets]
    constructor
    · rintro ⟨d, hd, hdc⟩
      rcases List.mem_map.mp hd with ⟨kv, hkv, rfl⟩
      rw [← volsOf_videoLoop]
      exact (volsOf_ne_nil_iff _ hg c).mpr ⟨kv, hkv, hdc⟩
    · intro hne
      rw [← volsOf_videoLoop] at hne
      rcases (volsOf_ne_nil_iff _ hg c).mp hne with ⟨kv, hkv, hk⟩
      exact ⟨_, List.mem_map_of_mem _ hkv, hk⟩
  · intro d hd hdc
    rw [hdets] at hd
    rcases List.mem_map.mp hd with ⟨kv, hkv, rfl⟩
    refine ⟨rfl, ?_⟩
    have h2 : kv.2 = classVolumes env m model frames c := by
      rw [← volsOf_videoLoop, ← hdc]
      exact (volsOf_eq_of_mem _ hg kv hkv).symm
    show round2 (kv.2.sum / (kv.2.length : ℚ)) = _
    rw [h2]

theorem C8_video_average_witness :
    classVolumes envW modelsNoDepth yoloW [imgW] "apple" ≠ [] ∧
    ∃ d ∈ (process_video envW modelsNoDepth yoloW [imgW]).detections,
      d.cls = "apple" := by
  have hne : classVolumes envW modelsNoDepth yoloW [imgW] "apple" ≠ [] := by
    rw [show classVolumes envW modelsNoDepth yoloW [imgW] "apple" = [0] from rfl]
    exact fun h => List.noConfusion h
  exact ⟨hne, (C8_video_average envW modelsNoDepth yoloW [imgW] "apple").1.mpr hne⟩

end NutriTracker
